import Mathlib

/-!
Verification of the scanning engine of the PiSlicer repository
(sma420564 / gpio-segled seven-segment LED display drivers).

The drivers exist in three C variants in the repository:
  * the decimal-point-aware 4-digit driver (src/unnamed/part_005), which
    encodes 8 segment bits (A..G plus decimal point P) and divides the
    auto-adjusted duty cycle by 8;
  * the 7-segment driver without decimal point (src/unnamed/part_006),
    which counts 7 segment bits and divides by 7;
  * the gpio-segled driver (embedded in src/SConstruct), which carries the
    explicit seg_adjust (auto-adjust) flag and otherwise matches the
    decimal-point-aware variant arithmetic.

C `int` fields are modelled as `Int` with `Int.tdiv` (truncating division,
as in C); C `unsigned long` is modelled as `Nat` reduced modulo 2 ^ 32 at
the operations where wraparound can occur (the repository's SConscript
builds for the 32-bit arm-linux target, where `unsigned long` is 32 bits).
Characters are modelled as byte values (`Nat` below 256).
-/

/-- Character-to-segment-pattern map of the decimal-point-aware driver
(the switch statement in prepare_update_digits, src/unnamed/part_005
lines 186-226).  Input is the byte value of the character; output is the
7-bit segment mask, bit order A = bit 0 .. G = bit 6.  Characters outside
the supported alphabet fall through to the all-off pattern 0. -/
def encodeChar : Nat → Nat
  | 48 => 0x3F  -- digit 0
  | 49 => 0x06  -- digit 1
  | 50 => 0x5B  -- digit 2
  | 51 => 0x4F  -- digit 3
  | 52 => 0x66  -- digit 4
  | 53 => 0x6D  -- digit 5
  | 54 => 0x7D  -- digit 6
  | 55 => 0x07  -- digit 7
  | 56 => 0x7F  -- digit 8
  | 57 => 0x6F  -- digit 9
  | 45 => 0x40  -- dash
  | 65 => 0x77  -- A
  | 66 => 0x7E  -- B
  | 67 => 0x39  -- C
  | 68 => 0x3E  -- D
  | 69 => 0x79  -- E
  | 70 => 0x71  -- F
  | 71 => 0x7D  -- G
  | 72 => 0x76  -- H
  | 73 => 0x06  -- I
  | 74 => 0x0E  -- J
  | 75 => 0x76  -- K
  | 76 => 0x38  -- L
  | 77 => 0x37  -- M
  | 78 => 0x37  -- N
  | 79 => 0x3F  -- O
  | 80 => 0x73  -- P
  | 81 => 0x3F  -- Q
  | 82 => 0x77  -- R
  | 83 => 0x6D  -- S
  | 84 => 0x31  -- T
  | 85 => 0x3E  -- U
  | 86 => 0x3E  -- V
  | 87 => 0x3E  -- W
  | 88 => 0x76  -- X
  | 89 => 0x72  -- Y
  | 90 => 0x5B  -- Z
  | _  => 0x00  -- space and anything unrecognized

/-- Segment encoder including the decimal-point flag: bit 7 is ORed in
when the decimal point of the active digit is set
(src/unnamed/part_005 lines 227-229). -/
def encode (c : Nat) (decimal_point : Bool) : Nat :=
  if decimal_point then encodeChar c ||| 0x80 else encodeChar c

/-- The supported alphabet of the segment encoder: digits 0-9, dash,
uppercase A-Z, space (byte values). -/
def encoderAlphabet : List Nat :=
  [48, 49, 50, 51, 52, 53, 54, 55, 56, 57, 45,
   65, 66, 67, 68, 69, 70, 71, 72, 73, 74, 75, 76, 77, 78,
   79, 80, 81, 82, 83, 84, 85, 86, 87, 88, 89, 90, 32]

/-- The segment font as documented in the code comment block of
src/unnamed/part_005 (lines 141-184): pairs of character byte value and
segment code. -/
def documentedFont : List (Nat × Nat) :=
  [(48, 0x3F), (49, 0x06), (50, 0x5B), (51, 0x4F), (52, 0x66),
   (53, 0x6D), (54, 0x7D), (55, 0x07), (56, 0x7F), (57, 0x6F),
   (45, 0x40),
   (65, 0x77), (66, 0x7E), (67, 0x39), (68, 0x3E), (69, 0x79),
   (70, 0x71), (71, 0x7D), (72, 0x76), (73, 0x06), (74, 0x0E),
   (75, 0x76), (76, 0x38), (77, 0x37), (78, 0x37), (79, 0x3F),
   (80, 0x73), (81, 0x3F), (82, 0x77), (83, 0x6D), (84, 0x31),
   (85, 0x3E), (86, 0x3E), (87, 0x3E), (88, 0x76), (89, 0x72),
   (90, 0x5B), (32, 0x00)]

/-- The bit-counting loop of prepare_update_digits: iterate `n` times,
each time testing the low bit of the running mask and shifting it right
(src/unnamed/part_005 lines 231-236, src/unnamed/part_006 lines 229-234,
src/SConstruct seg_adjust loop). -/
def segments_lit_loop : Nat → Nat → Nat → Nat
  | 0, _, lit => lit
  | n + 1, s, lit =>
      segments_lit_loop n (s >>> 1) (if s &&& 1 ≠ 0 then lit + 1 else lit)

/-- Lit-segment count of the 8-bit variants (src/unnamed/part_005 and
src/SConstruct): the loop runs from segment A through segment P, i.e.
8 iterations, so the decimal-point bit participates in the count. -/
def segments_lit (s : Nat) : Nat := segments_lit_loop 8 s 0

/-- Lit-segment count of the 7-bit variant (src/unnamed/part_006): the
loop runs from segment A through segment G, i.e. 7 iterations. -/
def segments_lit7 (s : Nat) : Nat := segments_lit_loop 7 s 0

/-- Number of set bits among bits 0..7 of a mask, written as the spec
phrases it (a straight popcount of the 8 mask bits). -/
def litCount8 (s : Nat) : Nat :=
  ((List.range 8).filter (fun i => s.testBit i)).length

/-- Number of set bits among bits 0..6 of a mask, the count the spec
describes as excluding the decimal point. -/
def litCount7 (s : Nat) : Nat :=
  ((List.range 7).filter (fun i => s.testBit i)).length

/-- Duty-cycle computation of the gpio-segled driver
(prepare_update_digits in src/SConstruct): start from the brightness
setting; if seg_adjust (auto-adjust) is set, count the lit bits of the
8-bit segment mask with the source's loop and divide by 8 using C
truncating division. -/
def compute_duty_cycle (brightness_percent : Int) (segment_mask : Nat)
    (seg_adjust : Bool) : Int :=
  if seg_adjust then
    Int.tdiv (brightness_percent * (segments_lit segment_mask : Nat)) 8
  else
    brightness_percent

/-- Duty-cycle computation of the 7-segment variant
(src/unnamed/part_006 line 235): always adjusted, 7 bits counted,
divided by 7. -/
def compute_duty_cycle7 (brightness_percent : Int) (segment_mask : Nat) : Int :=
  Int.tdiv (brightness_percent * (segments_lit7 segment_mask : Nat)) 7

/-- Mutable per-display state of the decimal-point-aware driver
(struct sma420564_device in src/unnamed/part_005, attribute and scan
fields only; the kernel resources are out of scope).  `digits` and
`decimal_points` hold 4 entries in every reachable state. -/
structure Sma where
  digits : List Nat
  decimal_points : List Bool
  refresh_rate_hz : Nat
  brightness_percent : Int
  resting : Bool
  last_digit : Nat
  active_digit : Nat
  segments_out : Nat
  duty_cycle_percent : Int
deriving Repr, DecidableEq

/-- Display state at device creation (probe in src/unnamed/part_005:
kzalloc zeroes the scan fields, digits are set to blanks, refresh and
brightness to their defaults). -/
def smaInit : Sma :=
  { digits := [32, 32, 32, 32]
    decimal_points := [false, false, false, false]
    refresh_rate_hz := 100
    brightness_percent := 100
    resting := false
    last_digit := 0
    active_digit := 0
    segments_out := 0
    duty_cycle_percent := 0 }

/-- A freshly created display showing 1111 at brightness 50 with the
refresh attribute set to 3 Hz. -/
def smaRefresh3 : Sma :=
  { smaInit with
      digits := [49, 49, 49, 49]
      brightness_percent := 50
      refresh_rate_hz := 3 }

/-- A freshly created display showing 1111 at brightness 50 at the
default 100 Hz refresh rate. -/
def smaDemo : Sma :=
  { smaInit with
      digits := [49, 49, 49, 49]
      brightness_percent := 50 }

/-- The digit-advance expression of prepare_update_digits:
`if (++active_digit >= NUM_DIGITS) active_digit = 0` with NUM_DIGITS = 4. -/
def stepActive (a : Nat) : Nat :=
  if 4 ≤ a + 1 then 0 else a + 1

/-- Scan-state advance step (prepare_update_digits,
src/unnamed/part_005 lines 123-239): toggle or clear the resting flag
based on the previous duty cycle; when not resting, advance the digit,
encode the character at the new digit (mixing in its decimal point),
store the segment mask, and recompute the duty cycle by the lit-segment
count divided by 8. -/
def prepare_update_digits (d : Sma) : Sma :=
  let resting :=
    if 0 < d.duty_cycle_percent ∧ d.duty_cycle_percent < 100 then
      !d.resting
    else
      false
  if resting then
    { d with resting := resting }
  else
    let active := stepActive d.active_digit
    let segs := encode (d.digits.getD active 32) (d.decimal_points.getD active false)
    { d with
        resting := resting
        active_digit := active
        segments_out := segs
        duty_cycle_percent :=
          Int.tdiv (d.brightness_percent * (segments_lit segs : Nat)) 8 }

/-- The timer divisor `NUM_DIGITS * refresh_rate_hz` as computed in
sma420564_digit_timer_tick: an `unsigned long` product, hence reduced
modulo 2 ^ 32 on the 32-bit arm-linux build target. -/
def timer_divisor (r : Nat) : Nat := (4 * r) % 2 ^ 32

/-- Nominal per-phase period in nanoseconds,
`1000000000 / (NUM_DIGITS * refresh_rate_hz)`
(src/unnamed/part_005 line 259).  Division by zero (refresh rate 0, or a
refresh rate whose product wraps to 0) is undefined behaviour in the C
source; `Nat` division returns 0 there. -/
def nominal_period (r : Nat) : Nat := 1000000000 / timer_divisor r

/-- One run of the scanning timer callback (sma420564_digit_timer_tick,
src/unnamed/part_005 lines 257-271): advance the scan state, then pick
the next period: the nominal period scaled by `duty/100` when active or
`(100-duty)/100` when resting, whenever the fresh duty cycle is strictly
between 0 and 100; the unscaled nominal period otherwise.  Returns the
advanced state and the period added to the timer expiry. -/
def sma420564_digit_timer_tick (d : Sma) : Sma × Nat :=
  let period := nominal_period d.refresh_rate_hz
  let d1 := prepare_update_digits d
  let period1 :=
    if 0 < d1.duty_cycle_percent ∧ d1.duty_cycle_percent < 100 then
      period / 100 *
        (if d1.resting then 100 - d1.duty_cycle_percent else d1.duty_cycle_percent).toNat
    else
      period
  (d1, period1)

/-- Behaviour of the refresh attribute setter (refresh_store,
src/unnamed/part_005 lines 345-349): `sscanf(buf, "%lu", ...)` stores the
parsed unsigned value into refresh_rate_hz with no range check; the
parsed value of the textual input is taken as given here, reduced to the
32-bit range of `unsigned long` on the arm-linux build target. -/
def refresh_store (d : Sma) (parsed : Nat) : Sma :=
  { d with refresh_rate_hz := parsed % 2 ^ 32 }

/-- A single GPIO write performed by the dispatcher: either a segment
anode pin (A..P, index 0..7) or a digit-select pin (index 0..3), driven
to a logic level.  In the decimal-point-aware driver (common cathode via
NPN drivers, src/unnamed/part_005) a digit is asserted by level 1 and
de-asserted by level 0. -/
inductive PinWrite where
  | seg (i : Fin 8) (level : Bool)
  | digit (i : Fin 4) (level : Bool)
deriving Repr, DecidableEq

/-- The scan-state fields read by one run of the dispatcher. -/
structure DispatchSnap where
  resting : Bool
  active_digit : Fin 4
  segments_out : Nat
deriving Repr, DecidableEq

/-- The segment-pin writes of execute_update_digits: one write per
segment GPIO A..P, driving bit i of segments_out
(src/unnamed/part_005 lines 248-251). -/
def segmentWrites (segs : Nat) : List PinWrite :=
  (List.finRange 8).map (fun i => PinWrite.seg i (segs.testBit i.val))

/-- The ordered pin writes of one run of the dispatcher
(execute_update_digits, src/unnamed/part_005 lines 241-255): first
unconditionally de-assert the digit-select pin of last_digit; stop there
when resting; otherwise write every segment pin from segments_out and
finally assert the digit-select pin of active_digit. -/
def execute_update_digits_writes (last_digit : Fin 4) (s : DispatchSnap) :
    List PinWrite :=
  PinWrite.digit last_digit false ::
    (if s.resting then []
     else segmentWrites s.segments_out ++ [PinWrite.digit s.active_digit true])

/-- The value of last_digit after one run of the dispatcher: updated to
active_digit only on the non-resting path. -/
def execute_update_digits_last (last_digit : Fin 4) (s : DispatchSnap) : Fin 4 :=
  if s.resting then last_digit else s.active_digit

/-- Effect of one pin write on the digit-select pin levels (segment
writes leave the digit-select pins untouched). -/
def applyPinWrite (p : Fin 4 → Bool) : PinWrite → (Fin 4 → Bool)
  | PinWrite.seg _ _ => p
  | PinWrite.digit i b => Function.update p i b

/-- The sequence of observable digit-select pin states along a write
sequence, including the state before the first write. -/
def pinStates (p : Fin 4 → Bool) : List PinWrite → List (Fin 4 → Bool)
  | [] => [p]
  | w :: ws => p :: pinStates (applyPinWrite p w) ws

/-- Writes produced by a run of consecutive dispatches, threading
last_digit through. -/
def runDispatches (last_digit : Fin 4) : List DispatchSnap → List PinWrite
  | [] => []
  | s :: rest =>
      execute_update_digits_writes last_digit s ++
        runDispatches (execute_update_digits_last last_digit s) rest

/-- At most one digit-select pin is asserted. -/
def atMostOneLit (p : Fin 4 → Bool) : Prop :=
  ∀ i j, p i = true → p j = true → i = j

/-- Only the most recently driven digit may have its select pin
asserted.  This holds at device creation (all digit pins are requested
driven low, last_digit is zero-initialized). -/
def litOnlyLast (p : Fin 4 → Bool) (last_digit : Fin 4) : Prop :=
  ∀ i, p i = true → i = last_digit

instance (p : Fin 4 → Bool) : Decidable (atMostOneLit p) := by
  unfold atMostOneLit; infer_instance

instance (p : Fin 4 → Bool) (l : Fin 4) : Decidable (litOnlyLast p l) := by
  unfold litOnlyLast; infer_instance

/-- Character-consuming loop of digits_store (src/unnamed/part_005
lines 303-320): walk the input bytes, stopping at the first byte below
32 or once 4 digit slots have been consumed; a dot after at least one
consumed character sets the decimal point of the previous slot, any
other byte is stored into the next slot.  `out` is digit_out, `ds` and
`ps` are the digits and decimal_points arrays. -/
def storeChars : List Nat → Nat → List Nat → List Bool →
    List Nat × List Bool × Nat
  | [], out, ds, ps => (ds, ps, out)
  | b :: rest, out, ds, ps =>
      if b < 32 ∨ 4 ≤ out then (ds, ps, out)
      else if b = 46 ∧ 0 < out then
        storeChars rest out ds (ps.set (out - 1) true)
      else
        storeChars rest (out + 1) (ds.set out b) ps

/-- Right-alignment loop of digits_store (src/unnamed/part_005
lines 322-333): digit_out runs from 3 down to 0 while digit_in runs
down from `consumed - 1`; entries are copied from digit_in when it is
still non-negative and blanked otherwise.  The first argument is the
count of remaining iterations (digit_out + 1). -/
def shiftLoop : Nat → Int → List Nat → List Bool → List Nat × List Bool
  | 0, _, ds, ps => (ds, ps)
  | n + 1, din, ds, ps =>
      if 0 ≤ din then
        shiftLoop n (din - 1)
          (ds.set n (ds.getD din.toNat 32))
          (ps.set n (ps.getD din.toNat false))
      else
        shiftLoop n (din - 1) (ds.set n 32) (ps.set n false)

/-- The digits attribute setter of the decimal-point-aware driver
(digits_store, src/unnamed/part_005 lines 293-336): blank all slots,
consume the input, right-align when fewer than 4 slots were consumed,
and report the full input length as consumed.  Returns the new digits
and decimal_points arrays together with the returned length. -/
def digits_store (buf : List Nat) : (List Nat × List Bool) × Nat :=
  let scan := storeChars buf 0 (List.replicate 4 32) (List.replicate 4 false)
  let out := scan.2.2
  (if out < 4 then shiftLoop 4 ((out : Int) - 1) scan.1 scan.2.1
   else (scan.1, scan.2.1),
   buf.length)

/-- Modelled from the spec (section 7): set the decimal point of the
most recently consumed character. -/
def setLastDp : List (Nat × Bool) → List (Nat × Bool)
  | [] => []
  | [x] => [(x.1, true)]
  | x :: y :: rest => x :: setLastDp (y :: rest)

/-- Modelled from the spec (section 7): the sequence of (character,
decimal point) slots consumed from the input, truncating at the first
byte below 32 or at the 4-slot limit, with a dot folding into the
previous slot when one exists. -/
def spec_scan_digits : List Nat → List (Nat × Bool) → List (Nat × Bool)
  | [], acc => acc
  | b :: rest, acc =>
      if b < 32 ∨ 4 ≤ acc.length then acc
      else if b = 46 ∧ acc ≠ [] then spec_scan_digits rest (setLastDp acc)
      else spec_scan_digits rest (acc ++ [(b, false)])

/-- Modelled from the spec (section 7): right-align the consumed slots
and pad the left-hand slots with blanks with decimal point off. -/
def spec_digits_store (buf : List Nat) : List Nat × List Bool :=
  let slots := spec_scan_digits buf []
  (List.replicate (4 - slots.length) 32 ++ slots.map Prod.fst,
   List.replicate (4 - slots.length) false ++ slots.map Prod.snd)

lemma segments_lit_loop_le (n : Nat) : ∀ s lit, segments_lit_loop n s lit ≤ lit + n := by
  induction n with
  | zero => intro s lit; simp [segments_lit_loop]
  | succ n ih =>
      intro s lit
      unfold segments_lit_loop
      split
      · exact le_trans (ih _ _) (by omega)
      · exact le_trans (ih _ _) (by omega)

lemma segments_lit_le (s : Nat) : segments_lit s ≤ 8 := by
  simpa using segments_lit_loop_le 8 s 0

set_option maxRecDepth 8000

lemma segments_lit_eq_litCount8 : ∀ m, m < 256 → segments_lit m = litCount8 m := by
  decide

lemma segments_lit7_eq_litCount7 : ∀ m, m < 256 → segments_lit7 m = litCount7 m := by
  decide

lemma tdiv_natCast (x y : Nat) :
    Int.tdiv (x : Int) (y : Int) = ((x / y : Nat) : Int) := by
  exact_mod_cast (Int.ofNat_tdiv x y).symm

/-- C8: with auto-adjust (seg_adjust) disabled, the duty-cycle
computation returns the brightness percentage unchanged for every
segment mask. -/
theorem claim8_duty_cycle_no_adjust (brightness_percent : Int) (segment_mask : Nat) :
    compute_duty_cycle brightness_percent segment_mask false = brightness_percent := rfl

/-- C1 counterexample: at brightness 50 with the mask of a digit 1 whose
decimal point is set (mask 0x86), the code counts the decimal-point bit
(3 lit bits) and returns 18, while the claim's count with the decimal
point excluded gives floor(50 * 2 / 8) = 12. -/
theorem claim1_counterexample :
    compute_duty_cycle 50 (encode 49 true) true = 18 ∧
    (50 * litCount7 (encode 49 true)) / 8 = 12 ∧
    compute_duty_cycle 50 (encode 49 true) true ≠
      (((50 * litCount7 (encode 49 true)) / 8 : Nat) : Int) := by
  decide

/-- C1 (amended): with auto-adjust enabled the duty cycle is
floor(brightness_percent * n / 8) where n is the number of set bits
among all 8 mask bits with the decimal point included in the count; a
blank digit (mask 0) yields 0, and at brightness 50 the mask for digit 1
yields 12 and the mask for digit 8 yields 43. -/
theorem claim1_duty_cycle_auto_adjust (m : Nat) (hm : m < 256) (b : Int)
    (hb0 : 0 ≤ b) (_hb1 : b ≤ 100) :
    compute_duty_cycle b m true = ((b.toNat * litCount8 m) / 8 : Nat) ∧
    compute_duty_cycle7 b m = ((b.toNat * litCount7 m) / 7 : Nat) ∧
    compute_duty_cycle 50 (encode 49 false) true = 12 ∧
    compute_duty_cycle 56 0 true = 0 ∧
    compute_duty_cycle 50 (encode 56 false) true = 43 ∧
    compute_duty_cycle b 0 true = 0 := by
  refine ⟨?_, ?_, by decide, by decide, by decide, ?_⟩
  · show Int.tdiv (b * (segments_lit m : Nat)) 8 = _
    rw [segments_lit_eq_litCount8 m hm]
    conv_lhs => rw [← Int.toNat_of_nonneg hb0]
    rw [← Nat.cast_mul, show ((8 : Int)) = ((8 : Nat) : Int) from rfl, tdiv_natCast]
  · show Int.tdiv (b * (segments_lit7 m : Nat)) 7 = _
    rw [segments_lit7_eq_litCount7 m hm]
    conv_lhs => rw [← Int.toNat_of_nonneg hb0]
    rw [← Nat.cast_mul, show ((7 : Int)) = ((7 : Nat) : Int) from rfl, tdiv_natCast]
  · show Int.tdiv (b * (segments_lit 0 : Nat)) 8 = 0
    simp [show segments_lit 0 = 0 from rfl]

theorem claim1_duty_cycle_auto_adjust_witness :
    compute_duty_cycle 50 6 true = ((Int.toNat 50 * litCount8 6) / 8 : Nat) :=
  (claim1_duty_cycle_auto_adjust 6 (by decide) 50 (by decide) (by decide)).1

/-- C2: one scheduler tick sets the resting flag to the negation of its
previous value exactly when the previous tick's duty cycle was strictly
between 0 and 100, and to false otherwise; the stated equation packs
both cases, so resting strictly alternates while 0 < duty < 100 and is
always cleared at duty 0 or 100. -/
theorem claim2_resting_toggle (d : Sma) :
    (prepare_update_digits d).resting =
      (decide (0 < d.duty_cycle_percent) && decide (d.duty_cycle_percent < 100)
        && !d.resting) := by
  by_cases h1 : 0 < d.duty_cycle_percent <;>
    by_cases h2 : d.duty_cycle_percent < 100 <;>
      cases hr : d.resting <;>
        simp [prepare_update_digits, h1, h2, hr]

/-- C7: the segment encoder is total: it reproduces the documented font
on the supported alphabet (digits, dash, uppercase letters, space), with
the examples 1 = 0x06 and 2 = 0x5B; every byte outside the alphabet maps
to the all-off pattern 0; the character pattern stays within 7 bits, and
bit 7 of the final mask is set exactly when the decimal-point flag is
true. -/
theorem claim7_segment_encoder :
    (∀ p, p ∈ documentedFont → encodeChar p.1 = p.2) ∧
    (∀ c, c < 256 → c ∉ encoderAlphabet → encodeChar c = 0) ∧
    encodeChar 49 = 0x06 ∧ encodeChar 50 = 0x5B ∧
    (∀ c, c < 256 → encodeChar c < 128) ∧
    (∀ c, c < 256 → ∀ dp : Bool, (encode c dp).testBit 7 = dp) ∧
    (∀ c, c < 256 →
      encode c true = encodeChar c + 128 ∧ encode c false = encodeChar c) := by
  refine ⟨by decide, by decide, by decide, by decide, by decide, ?_, by decide⟩
  intro c hc dp
  cases dp <;> revert hc <;> revert c <;> decide

theorem claim7_segment_encoder_witness :
    encodeChar 63 = 0 ∧ (encode 56 true).testBit 7 = true :=
  ⟨claim7_segment_encoder.2.1 63 (by decide) (by decide),
   claim7_segment_encoder.2.2.2.2.2.1 56 (by decide) true⟩

/-- C5: a resting advance leaves the active digit and the pending
segment mask unchanged; a non-resting advance moves the active digit by
the stepping expression, which on the valid range 0..3 is addition by
one modulo 4; iterating that step four times returns to the start and
the four intermediate values are pairwise distinct, so each index is
visited exactly once per four non-resting advances. -/
theorem claim5_digit_cycle (d : Sma) :
    ((prepare_update_digits d).resting = true →
      (prepare_update_digits d).active_digit = d.active_digit ∧
      (prepare_update_digits d).segments_out = d.segments_out) ∧
    ((prepare_update_digits d).resting = false →
      (prepare_update_digits d).active_digit = stepActive d.active_digit) ∧
    (∀ a, a < 4 → stepActive a = (a + 1) % 4) ∧
    (∀ a, a < 4 → stepActive^[4] a = a) ∧
    (∀ a, a < 4 → ∀ i, i < 4 → ∀ j, j < 4 →
      stepActive^[i] a = stepActive^[j] a → i = j) := by
  refine ⟨?_, ?_, by decide, by decide, by decide⟩ <;>
    by_cases h1 : 0 < d.duty_cycle_percent <;>
      by_cases h2 : d.duty_cycle_percent < 100 <;>
        cases hr : d.resting <;>
          simp [prepare_update_digits, h1, h2, hr]

theorem claim5_digit_cycle_witness :
    (prepare_update_digits { smaInit with duty_cycle_percent := 50 }).active_digit =
      ({ smaInit with duty_cycle_percent := 50 } : Sma).active_digit ∧
    stepActive^[4] 2 = 2 :=
  ⟨((claim5_digit_cycle { smaInit with duty_cycle_percent := 50 }).1 (by decide)).1,
   (claim5_digit_cycle smaInit).2.2.2.1 2 (by decide)⟩

lemma stepActive_lt (a : Nat) : stepActive a < 4 := by
  unfold stepActive; split <;> omega

lemma tdiv_mul_lit_eq (b : Int) (hb : 0 ≤ b) (lit : Nat) :
    Int.tdiv (b * (lit : Nat)) 8 = ((b.toNat * lit / 8 : Nat) : Int) := by
  conv_lhs => rw [← Int.toNat_of_nonneg hb]
  rw [← Nat.cast_mul, show ((8 : Int)) = ((8 : Nat) : Int) from rfl, tdiv_natCast]

lemma tdiv_mul_lit_nonneg (b : Int) (hb : 0 ≤ b) (lit : Nat) :
    0 ≤ Int.tdiv (b * (lit : Nat)) 8 := by
  rw [tdiv_mul_lit_eq b hb lit]
  exact_mod_cast Nat.zero_le _

lemma tdiv_mul_lit_le (b : Int) (hb : 0 ≤ b) (lit : Nat) (hlit : lit ≤ 8) :
    Int.tdiv (b * (lit : Nat)) 8 ≤ b := by
  rw [tdiv_mul_lit_eq b hb lit]
  conv_rhs => rw [← Int.toNat_of_nonneg hb]
  have h1 : b.toNat * lit ≤ b.toNat * 8 := Nat.mul_le_mul_left _ hlit
  have h2 : b.toNat * lit / 8 ≤ b.toNat * 8 / 8 := Nat.div_le_div_right h1
  have h3 : b.toNat * 8 / 8 = b.toNat := Nat.mul_div_cancel _ (by norm_num)
  exact_mod_cast h3 ▸ h2

/-- C9: from any state with a valid active digit and duty cycle, and
brightness within 0..100, the advance step keeps the active digit in
0..3 and the duty cycle in 0..100; moreover whenever the step computes a
fresh duty cycle (the non-resting path) that duty cycle does not exceed
the configured brightness, because the lit-bit count never exceeds the
divisor 8. -/
theorem claim9_advance_invariant (d : Sma) (ha : d.active_digit < 4)
    (hb0 : 0 ≤ d.brightness_percent) (hb1 : d.brightness_percent ≤ 100)
    (hd0 : 0 ≤ d.duty_cycle_percent) (hd1 : d.duty_cycle_percent ≤ 100) :
    (prepare_update_digits d).active_digit < 4 ∧
    0 ≤ (prepare_update_digits d).duty_cycle_percent ∧
    (prepare_update_digits d).duty_cycle_percent ≤ 100 ∧
    ((prepare_update_digits d).resting = false →
      (prepare_update_digits d).duty_cycle_percent ≤ d.brightness_percent) := by
  by_cases h : 0 < d.duty_cycle_percent ∧ d.duty_cycle_percent < 100
  · cases hr : d.resting
    · simp only [prepare_update_digits, if_pos h, hr, Bool.not_false, if_true]
      exact ⟨ha, hd0, hd1, by intro hc; cases hc⟩
    · simp only [prepare_update_digits, if_pos h, hr, Bool.not_true, if_false]
      exact ⟨stepActive_lt _, tdiv_mul_lit_nonneg _ hb0 _,
        le_trans (tdiv_mul_lit_le _ hb0 _ (segments_lit_le _)) hb1,
        fun _ => tdiv_mul_lit_le _ hb0 _ (segments_lit_le _)⟩
  · simp only [prepare_update_digits, if_neg h, if_false]
    exact ⟨stepActive_lt _, tdiv_mul_lit_nonneg _ hb0 _,
      le_trans (tdiv_mul_lit_le _ hb0 _ (segments_lit_le _)) hb1,
      fun _ => tdiv_mul_lit_le _ hb0 _ (segments_lit_le _)⟩

theorem claim9_advance_invariant_witness :
    (prepare_update_digits smaInit).active_digit < 4 ∧
    0 ≤ (prepare_update_digits smaInit).duty_cycle_percent ∧
    (prepare_update_digits smaInit).duty_cycle_percent ≤ 100 :=
  let h := claim9_advance_invariant smaInit (by decide) (by decide)
    (by decide) (by decide) (by decide)
  ⟨h.1, h.2.1, h.2.2.1⟩

lemma prepare_refresh (d : Sma) :
    (prepare_update_digits d).refresh_rate_hz = d.refresh_rate_hz := by
  by_cases h : 0 < d.duty_cycle_percent ∧ d.duty_cycle_percent < 100
  · cases hr : d.resting <;> simp [prepare_update_digits, h, hr]
  · simp [prepare_update_digits, h]

lemma prepare_rest_step (d : Sma) (h0 : 0 < d.duty_cycle_percent)
    (h1 : d.duty_cycle_percent < 100) (hr : d.resting = false) :
    prepare_update_digits d = { d with resting := true } := by
  simp [prepare_update_digits, h0, h1, hr]

/-- C4 counterexample: with refresh rate 3 Hz the nominal period is
83333333 ns, which is not a multiple of 100; after the first tick (duty
cycle 12 with brightness 50 on a display of 1s) the active-phase and
rest-phase periods are 9999996 and 73333304, summing to 83333300, not
the nominal period. -/
theorem claim4_counterexample :
    nominal_period smaRefresh3.refresh_rate_hz = 83333333 ∧
    (sma420564_digit_timer_tick smaRefresh3).2 = 9999996 ∧
    (sma420564_digit_timer_tick (sma420564_digit_timer_tick smaRefresh3).1).2 =
      73333304 ∧
    (sma420564_digit_timer_tick smaRefresh3).2 +
        (sma420564_digit_timer_tick (sma420564_digit_timer_tick smaRefresh3).1).2 ≠
      nominal_period smaRefresh3.refresh_rate_hz := by
  decide

/-- C4 (amended): on a tick whose freshly computed duty cycle lies
strictly between 0 and 100 and which is active (non-resting), the next
tick rests, and the active-phase and rest-phase periods sum to the
nominal period rounded down to a multiple of 100 nanoseconds (the code
computes period / 100 * scale with integer division); the sum equals
exactly one nominal period precisely when 100 divides the nominal
period, as it does at the default 100 Hz refresh rate. -/
theorem claim4_period_split (d : Sma)
    (h0 : 0 < (sma420564_digit_timer_tick d).1.duty_cycle_percent)
    (h1 : (sma420564_digit_timer_tick d).1.duty_cycle_percent < 100)
    (hr : (sma420564_digit_timer_tick d).1.resting = false) :
    (sma420564_digit_timer_tick (sma420564_digit_timer_tick d).1).1.resting = true ∧
    (sma420564_digit_timer_tick d).2 +
        (sma420564_digit_timer_tick (sma420564_digit_timer_tick d).1).2 =
      nominal_period d.refresh_rate_hz - nominal_period d.refresh_rate_hz % 100 ∧
    (nominal_period d.refresh_rate_hz % 100 = 0 →
      (sma420564_digit_timer_tick d).2 +
          (sma420564_digit_timer_tick (sma420564_digit_timer_tick d).1).2 =
        nominal_period d.refresh_rate_hz) := by
  have e1 : (sma420564_digit_timer_tick d).1 = prepare_update_digits d := rfl
  rw [e1] at h0 h1 hr
  have hstep := prepare_rest_step (prepare_update_digits d) h0 h1 hr
  have hp1 : (sma420564_digit_timer_tick d).2 =
      nominal_period d.refresh_rate_hz / 100 *
        (prepare_update_digits d).duty_cycle_percent.toNat := by
    simp only [sma420564_digit_timer_tick]
    rw [if_pos ⟨h0, h1⟩, hr]
    simp
  have hp2 : (sma420564_digit_timer_tick (sma420564_digit_timer_tick d).1).2 =
      nominal_period d.refresh_rate_hz / 100 *
        (100 - (prepare_update_digits d).duty_cycle_percent).toNat := by
    rw [e1]
    simp only [sma420564_digit_timer_tick]
    rw [prepare_refresh d, hstep]
    simp only []
    rw [if_pos (show 0 < ({ prepare_update_digits d with resting := true } : Sma).duty_cycle_percent ∧
          ({ prepare_update_digits d with resting := true } : Sma).duty_cycle_percent < 100 from ⟨h0, h1⟩)]
    simp
  have ht : (prepare_update_digits d).duty_cycle_percent.toNat +
      (100 - (prepare_update_digits d).duty_cycle_percent).toNat = 100 := by
    omega
  have hsum : (sma420564_digit_timer_tick d).2 +
      (sma420564_digit_timer_tick (sma420564_digit_timer_tick d).1).2 =
      nominal_period d.refresh_rate_hz -
        nominal_period d.refresh_rate_hz % 100 := by
    rw [hp1, hp2, ← Nat.mul_add, ht]
    omega
  refine ⟨?_, hsum, fun hmod => by omega⟩
  rw [e1]
  show (prepare_update_digits (prepare_update_digits d)).resting = true
  rw [hstep]

theorem claim4_period_split_witness :
    (sma420564_digit_timer_tick (sma420564_digit_timer_tick smaDemo).1).1.resting = true ∧
    (sma420564_digit_timer_tick smaDemo).2 +
        (sma420564_digit_timer_tick (sma420564_digit_timer_tick smaDemo).1).2 =
      nominal_period smaDemo.refresh_rate_hz -
        nominal_period smaDemo.refresh_rate_hz % 100 ∧
    (nominal_period smaDemo.refresh_rate_hz % 100 = 0 →
      (sma420564_digit_timer_tick smaDemo).2 +
          (sma420564_digit_timer_tick (sma420564_digit_timer_tick smaDemo).1).2 =
        nominal_period smaDemo.refresh_rate_hz) :=
  claim4_period_split smaDemo (by decide) (by decide) (by decide)

/-- C10 counterexample: the refresh setter accepts 2 ^ 30 (a positive
value within the 32-bit unsigned long range), yet the timer divisor
4 * 2 ^ 30 wraps to 0 modulo 2 ^ 32, so the tick division is not
well-defined even though refresh_rate_hz is positive. -/
theorem claim10_counterexample :
    (refresh_store smaInit (2 ^ 30)).refresh_rate_hz = 2 ^ 30 ∧
    0 < (2 : Nat) ^ 30 ∧
    timer_divisor (refresh_store smaInit (2 ^ 30)).refresh_rate_hz = 0 := by
  constructor
  · rfl
  · constructor
    · decide
    · rfl

/-- C10 (amended): the tick's period computation has no zero guard and
the refresh setter stores any parsed value, 0 included, unchanged within
the 32-bit unsigned long range; the divisor 4 * refresh_rate_hz (taken
modulo 2 ^ 32) is nonzero exactly when refresh_rate_hz is not a multiple
of 2 ^ 30 — in particular it is nonzero for every refresh rate strictly
between 0 and 2 ^ 30, and zero when the stored rate is 0. -/
theorem claim10_divisor_nonzero (r : Nat) (v : Nat) (d : Sma) (hv : v < 2 ^ 32) :
    (refresh_store d v).refresh_rate_hz = v ∧
    (timer_divisor r ≠ 0 ↔ r % 2 ^ 30 ≠ 0) ∧
    (0 < r → r < 2 ^ 30 → timer_divisor r ≠ 0) ∧
    timer_divisor 0 = 0 := by
  refine ⟨?_, ?_, ?_, rfl⟩
  · show v % 2 ^ 32 = v
    omega
  · unfold timer_divisor
    constructor <;> intro h <;> omega
  · intro hr0 hr1
    unfold timer_divisor
    omega

theorem claim10_divisor_nonzero_witness :
    (refresh_store smaInit 60).refresh_rate_hz = 60 ∧
    (timer_divisor 100 ≠ 0 ↔ 100 % 2 ^ 30 ≠ 0) ∧
    (0 < 100 → 100 < 2 ^ 30 → timer_divisor 100 ≠ 0) ∧
    timer_divisor 0 = 0 := by
  have h := claim10_divisor_nonzero 100 60 smaInit (by norm_num)
  exact h

lemma pinStates_append (xs : List PinWrite) :
    ∀ (p : Fin 4 → Bool) (ys : List PinWrite) (q : Fin 4 → Bool),
      q ∈ pinStates p (xs ++ ys) →
      q ∈ pinStates p xs ∨ q ∈ pinStates (xs.foldl applyPinWrite p) ys := by
  induction xs with
  | nil =>
      intro p ys q hq
      right
      simpa using hq
  | cons w ws ih =>
      intro p ys q hq
      simp only [List.cons_append, pinStates, List.mem_cons] at hq
      rcases hq with hq | hq
      · left; simp [pinStates, hq]
      · rcases ih (applyPinWrite p w) ys q hq with h | h
        · left; simp [pinStates, h]
        · right; simpa [List.foldl] using h

lemma segmentWrites_states (segs : Nat) :
    ∀ (l : List (Fin 8)) (p : Fin 4 → Bool) (q : Fin 4 → Bool),
      q ∈ pinStates p (l.map (fun i => PinWrite.seg i (segs.testBit i.val))) → q = p := by
  intro l
  induction l with
  | nil => intro p q hq; simpa [pinStates] using hq
  | cons i rest ih =>
      intro p q hq
      simp only [List.map_cons, pinStates, List.mem_cons, applyPinWrite] at hq
      rcases hq with hq | hq
      · exact hq
      · exact ih p q hq

lemma segmentWrites_foldl (segs : Nat) :
    ∀ (l : List (Fin 8)) (p : Fin 4 → Bool),
      (l.map (fun i => PinWrite.seg i (segs.testBit i.val))).foldl applyPinWrite p = p := by
  intro l
  induction l with
  | nil => intro p; rfl
  | cons i rest ih => intro p; simpa [applyPinWrite] using ih p

lemma update_false_all (p : Fin 4 → Bool) (last : Fin 4)
    (hp : litOnlyLast p last) (i : Fin 4) :
    Function.update p last false i = false := by
  by_cases h : i = last
  · subst h; simp
  · rw [Function.update_noteq h]
    cases hpi : p i
    · rfl
    · exact absurd (hp i hpi) h

lemma dispatch_states_safe (last : Fin 4) (s : DispatchSnap) (p : Fin 4 → Bool)
    (hp : litOnlyLast p last) :
    (∀ q ∈ pinStates p (execute_update_digits_writes last s), atMostOneLit q) ∧
    litOnlyLast ((execute_update_digits_writes last s).foldl applyPinWrite p)
      (execute_update_digits_last last s) := by
  have hone : atMostOneLit p := fun i j hi hj => (hp i hi).trans (hp j hj).symm
  have hall := update_false_all p last hp
  have honep1 : atMostOneLit (Function.update p last false) := by
    intro i j hi
    rw [hall i] at hi
    cases hi
  have honep2 : atMostOneLit
      (Function.update (Function.update p last false) s.active_digit true) := by
    intro i j hi hj
    by_cases hia : i = s.active_digit <;> by_cases hja : j = s.active_digit
    · exact hia.trans hja.symm
    · rw [Function.update_noteq hja, hall j] at hj; cases hj
    · rw [Function.update_noteq hia, hall i] at hi; cases hi
    · rw [Function.update_noteq hia, hall i] at hi; cases hi
  have hlit2 : litOnlyLast
      (Function.update (Function.update p last false) s.active_digit true)
      s.active_digit := by
    intro i hi
    by_cases h : i = s.active_digit
    · exact h
    · rw [Function.update_noteq h, hall i] at hi; cases hi
  cases hrest : s.resting
  · -- active path: de-assert, write the 8 segment pins, assert the digit
    simp only [execute_update_digits_writes, execute_update_digits_last, hrest,
      Bool.false_eq_true, ite_false]
    constructor
    · intro q hq
      simp only [pinStates, List.mem_cons, applyPinWrite, segmentWrites] at hq
      rcases hq with hq | hq | hq | hq | hq | hq | hq | hq | hq | hq | hq | hq
      · subst hq; exact hone
      · subst hq; exact honep1
      · subst hq; exact honep1
      · subst hq; exact honep1
      · subst hq; exact honep1
      · subst hq; exact honep1
      · subst hq; exact honep1
      · subst hq; exact honep1
      · subst hq; exact honep1
      · subst hq; exact honep1
      · subst hq; exact honep2
      · exact absurd hq (List.not_mem_nil q)
    · simp only [List.foldl, applyPinWrite, segmentWrites]
      exact hlit2
  · -- resting path: only the de-assert write happens
    simp only [execute_update_digits_writes, execute_update_digits_last, hrest,
      ite_true]
    constructor
    · intro q hq
      simp only [pinStates, List.mem_cons, applyPinWrite,
        List.not_mem_nil, or_false] at hq
      rcases hq with hq | hq
      · subst hq; exact hone
      · subst hq; exact honep1
    · intro i hi
      simp only [List.foldl, applyPinWrite] at hi
      rw [hall i] at hi
      cases hi

/-- C3: every dispatcher run first writes the de-assert level to
last_digit's select pin; when resting that is the only write, and
otherwise the segment pins are written and active_digit is asserted
last, with last_digit updated to active_digit; consequently along any
run of dispatches starting from a pin state in which only last_digit
may be asserted (as at device creation, when all pins are driven low),
every observable instant has at most one digit-select pin asserted. -/
theorem claim3_dispatch_exclusive (snaps : List DispatchSnap) (last : Fin 4)
    (p : Fin 4 → Bool) (hp : litOnlyLast p last) (s : DispatchSnap) :
    (∀ q ∈ pinStates p (runDispatches last snaps), atMostOneLit q) ∧
    (execute_update_digits_writes last s).head? =
      some (PinWrite.digit last false) ∧
    (s.resting = true →
      execute_update_digits_writes last s = [PinWrite.digit last false] ∧
      execute_update_digits_last last s = last) ∧
    (s.resting = false →
      execute_update_digits_writes last s =
        PinWrite.digit last false ::
          (segmentWrites s.segments_out ++ [PinWrite.digit s.active_digit true]) ∧
      execute_update_digits_last last s = s.active_digit) := by
  refine ⟨?_, rfl, ?_, ?_⟩
  · induction snaps generalizing last p with
    | nil =>
        intro q hq
        simp only [runDispatches, pinStates, List.mem_singleton] at hq
        subst hq
        exact fun i j hi hj => (hp i hi).trans (hp j hj).symm
    | cons t rest ih =>
        intro q hq
        simp only [runDispatches] at hq
        rcases pinStates_append _ _ _ q hq with h | h
        · exact (dispatch_states_safe last t p hp).1 q h
        · exact ih _ _ (dispatch_states_safe last t p hp).2 q h
  · intro h
    simp [execute_update_digits_writes, execute_update_digits_last, h]
  · intro h
    simp [execute_update_digits_writes, execute_update_digits_last, h]

theorem claim3_dispatch_exclusive_witness :
    atMostOneLit
      ((pinStates (fun _ => false)
        (runDispatches 0
          [{ resting := false, active_digit := 1, segments_out := 6 },
           { resting := true, active_digit := 2, segments_out := 6 },
           { resting := false, active_digit := 2, segments_out := 91 }])).getD 12
        (fun _ => false)) :=
  (claim3_dispatch_exclusive
      [{ resting := false, active_digit := 1, segments_out := 6 },
       { resting := true, active_digit := 2, segments_out := 6 },
       { resting := false, active_digit := 2, segments_out := 91 }]
      0 (fun _ => false) (by decide)
      { resting := false, active_digit := 1, segments_out := 6 }).1
    _ (by decide)

lemma set_append_boundary {α : Type} (xs ys : List α) (b : α) :
    (xs ++ ys).set xs.length b = xs ++ ys.set 0 b := by
  rw [List.set_append]
  simp

lemma set_append_left {α : Type} (xs ys : List α) (i : Nat) (h : i < xs.length)
    (b : α) :
    (xs ++ ys).set i b = xs.set i b ++ ys := by
  rw [List.set_append]
  simp [h, Nat.not_le.mpr h]

lemma set_append_at_length {α : Type} (xs ys : List α) (i : Nat)
    (h : i = xs.length) (b : α) :
    (xs ++ ys).set i b = xs ++ ys.set 0 b := by
  subst h
  exact set_append_boundary xs ys b

lemma setLastDp_fst (acc : List (Nat × Bool)) :
    (setLastDp acc).map Prod.fst = acc.map Prod.fst := by
  induction acc with
  | nil => rfl
  | cons x rest ih =>
      cases rest with
      | nil => rfl
      | cons y t =>
          simp only [setLastDp, List.map_cons] at ih ⊢
          rw [ih]

lemma setLastDp_length (acc : List (Nat × Bool)) :
    (setLastDp acc).length = acc.length := by
  induction acc with
  | nil => rfl
  | cons x rest ih =>
      cases rest with
      | nil => rfl
      | cons y t =>
          simp only [setLastDp, List.length_cons] at ih ⊢
          rw [ih]

lemma setLastDp_snd (acc : List (Nat × Bool)) :
    (setLastDp acc).map Prod.snd = (acc.map Prod.snd).set (acc.length - 1) true := by
  induction acc with
  | nil => rfl
  | cons x rest ih =>
      cases rest with
      | nil => rfl
      | cons y t =>
          simp only [setLastDp, List.map_cons, List.length_cons] at ih ⊢
          rw [ih]
          rfl

lemma storeChars_spec (bs : List Nat) :
    ∀ (acc : List (Nat × Bool)), acc.length ≤ 4 →
      storeChars bs acc.length
          (acc.map Prod.fst ++ List.replicate (4 - acc.length) 32)
          (acc.map Prod.snd ++ List.replicate (4 - acc.length) false) =
        ((spec_scan_digits bs acc).map Prod.fst ++
            List.replicate (4 - (spec_scan_digits bs acc).length) 32,
         (spec_scan_digits bs acc).map Prod.snd ++
            List.replicate (4 - (spec_scan_digits bs acc).length) false,
         (spec_scan_digits bs acc).length) ∧
      (spec_scan_digits bs acc).length ≤ 4 := by
  induction bs with
  | nil =>
      intro acc hlen
      exact ⟨rfl, hlen⟩
  | cons b rest ih =>
      intro acc hlen
      by_cases hstop : b < 32 ∨ 4 ≤ acc.length
      · simp only [storeChars, spec_scan_digits]
        rw [if_pos hstop, if_pos hstop]
        exact ⟨rfl, hlen⟩
      · by_cases hdot : b = 46 ∧ 0 < acc.length
        · have hne : acc ≠ [] := List.length_pos.mp hdot.2
          have hlen2 : (setLastDp acc).length = acc.length := setLastDp_length acc
          simp only [storeChars, spec_scan_digits]
          rw [if_neg hstop, if_neg hstop, if_pos hdot, if_pos ⟨hdot.1, hne⟩]
          have e1 : acc.map Prod.fst = (setLastDp acc).map Prod.fst :=
            (setLastDp_fst acc).symm
          have e2 : (acc.map Prod.snd ++ List.replicate (4 - acc.length) false).set
              (acc.length - 1) true =
              (setLastDp acc).map Prod.snd ++
                List.replicate (4 - (setLastDp acc).length) false := by
            rw [set_append_left _ _ _ (by simp; omega) true]
            rw [← setLastDp_snd acc, hlen2]
          rw [e2, e1, show acc.length = (setLastDp acc).length from hlen2.symm]
          exact ih (setLastDp acc) (by rw [hlen2]; exact hlen)
        · have hnd : ¬(b = 46 ∧ acc ≠ []) := by
            intro hc
            exact hdot ⟨hc.1, List.length_pos.mpr hc.2⟩
          have hlt : acc.length < 4 := by omega
          simp only [storeChars, spec_scan_digits]
          rw [if_neg hstop, if_neg hstop, if_neg hdot, if_neg hnd]
          have hrep : 4 - acc.length = (4 - (acc.length + 1)) + 1 := by omega
          have eb : (acc.map Prod.fst ++ List.replicate (4 - acc.length) 32).set
              acc.length b =
              acc.map Prod.fst ++ (List.replicate (4 - acc.length) 32).set 0 b :=
            set_append_at_length _ _ _ (List.length_map acc Prod.fst).symm b
          have e1 : (acc.map Prod.fst ++ List.replicate (4 - acc.length) 32).set
              acc.length b =
              (acc ++ [(b, false)]).map Prod.fst ++
                List.replicate (4 - (acc ++ [(b, false)]).length) 32 := by
            rw [eb, hrep]
            simp [List.replicate_succ]
          have e2 : acc.map Prod.snd ++ List.replicate (4 - acc.length) false =
              (acc ++ [(b, false)]).map Prod.snd ++
                List.replicate (4 - (acc ++ [(b, false)]).length) false := by
            rw [hrep]
            simp [List.replicate_succ]
          rw [e1, e2, show acc.length + 1 = (acc ++ [(b, false)]).length by simp]
          exact ih (acc ++ [(b, false)]) (by simp; omega)

lemma shiftLoop_spec (k : Nat) (hk : k < 4) (ds : List Nat) (ps : List Bool)
    (hds : ds.length = 4) (hps : ps.length = 4) :
    shiftLoop 4 ((k : Int) - 1) ds ps =
      (List.replicate (4 - k) 32 ++ ds.take k,
       List.replicate (4 - k) false ++ ps.take k) := by
  rcases ds with _ | ⟨d0, ds⟩
  · simp at hds
  rcases ds with _ | ⟨d1, ds⟩
  · simp at hds
  rcases ds with _ | ⟨d2, ds⟩
  · simp at hds
  rcases ds with _ | ⟨d3, ds⟩
  · simp at hds
  rcases ds with _ | ⟨d4, ds⟩
  swap
  · simp at hds
  rcases ps with _ | ⟨p0, ps⟩
  · simp at hps
  rcases ps with _ | ⟨p1, ps⟩
  · simp at hps
  rcases ps with _ | ⟨p2, ps⟩
  · simp at hps
  rcases ps with _ | ⟨p3, ps⟩
  · simp at hps
  rcases ps with _ | ⟨p4, ps⟩
  swap
  · simp at hps
  interval_cases k <;> rfl

/-- C6 counterexample: the input ".5" begins with a dot that has no
preceding character; the code stores the dot as a literal character in a
digit slot (the result shows character 46 in the third slot), instead of
ignoring it as the claim states, which would give a blank there. -/
theorem claim6_counterexample :
    digits_store [46, 53] =
      (([32, 32, 46, 53], [false, false, false, false]), 2) ∧
    digits_store [46, 53] ≠
      (([32, 32, 32, 53], [false, false, false, false]), 2) := by
  decide

/-- C6 (amended): the digits setter never fails and always reports the
full input length consumed; the input is truncated at the first byte
below 32 or at the 4-slot limit; a dot immediately following a consumed
character sets that character's decimal point without consuming a slot,
while a leading dot with no preceding character is stored as a literal
dot character and consumes a digit slot; the consumed slots are
right-aligned with the left-hand slots padded by blanks with decimal
point off.  Writing "12" yields "  12" and writing "1.2" yields
[blank, blank, 1, 2] with decimal points [false, false, true, false]. -/
theorem claim6_digits_store_characterization (buf : List Nat) :
    digits_store buf = (spec_digits_store buf, buf.length) ∧
    digits_store [49, 50] =
      (([32, 32, 49, 50], [false, false, false, false]), 2) ∧
    digits_store [49, 46, 50] =
      (([32, 32, 49, 50], [false, false, true, false]), 3) := by
  refine ⟨?_, by decide, by decide⟩
  obtain ⟨heq, hle⟩ := storeChars_spec buf [] (by simp)
  simp only [List.map_nil, List.nil_append, List.length_nil, Nat.sub_zero] at heq
  unfold digits_store spec_digits_store
  rw [heq]
  by_cases hk : (spec_scan_digits buf []).length < 4
  · simp only [hk, if_true, ite_true]
    rw [shiftLoop_spec (spec_scan_digits buf []).length hk _ _
      (by simp; omega) (by simp; omega)]
    have t1 : ((spec_scan_digits buf []).map Prod.fst ++
        List.replicate (4 - (spec_scan_digits buf []).length) 32).take
          (spec_scan_digits buf []).length =
        (spec_scan_digits buf []).map Prod.fst := by
      conv_lhs =>
        rw [show (spec_scan_digits buf []).length =
          ((spec_scan_digits buf []).map Prod.fst).length from
            (List.length_map _ _).symm]
      exact List.take_left _ _
    have t2 : ((spec_scan_digits buf []).map Prod.snd ++
        List.replicate (4 - (spec_scan_digits buf []).length) false).take
          (spec_scan_digits buf []).length =
        (spec_scan_digits buf []).map Prod.snd := by
      conv_lhs =>
        rw [show (spec_scan_digits buf []).length =
          ((spec_scan_digits buf []).map Prod.snd).length from
            (List.length_map _ _).symm]
      exact List.take_left _ _
    rw [t1, t2]
  · have hk4 : (spec_scan_digits buf []).length = 4 := by omega
    simp only [hk, if_false, ite_false, hk4, Nat.sub_self, List.replicate_zero,
      List.nil_append]
    simp
